import Mathlib

/-!
Shallow embedding of the fan-out/fan-in video translation coordinator
(`mpi/mpi_service.py`, `translate-backend/app/services/MPITranslationService.py`,
`translate-backend/app/utils/job_manager.py`).

Time values (seconds) are modelled as rationals; Python ints as `Int`/`Nat`;
Python dicts holding job records as association lists keyed by string;
fallible calls (raising Python code) as `Option`/`Except`.
-/

namespace Sister

/-- Chunk metadata as built by `MPITranslationService.split_video_into_chunks`
    in `mpi/mpi_service.py`: a dict with keys `chunk_id`, `start_time`,
    `end_time`, `video_path`. -/
structure Chunk where
  chunk_id : Nat
  start_time : ℚ
  end_time : ℚ
  video_path : String
deriving DecidableEq, Repr

/-- Embedding of `split_video_into_chunks` (mpi_service.py lines 28-59).
    The Python body reads `duration` from the clip and computes
    `chunk_duration = duration / num_chunks`, then for `i in range(num_chunks)`
    emits `{chunk_id: i, start_time: i*chunk_duration,
    end_time: min((i+1)*chunk_duration, duration), video_path}`.
    There is no input validation; `num_chunks == 0` raises `ZeroDivisionError`
    (modelled as `none`), and `range` of a negative int is empty. -/
def split_video_into_chunks (video_path : String) (duration : ℚ) (num_chunks : ℤ) :
    Option (List Chunk) :=
  if num_chunks = 0 then none
  else
    let chunk_duration : ℚ := duration / (num_chunks : ℚ)
    some ((List.range num_chunks.toNat).map (fun i =>
      { chunk_id := i
        start_time := (i : ℚ) * chunk_duration
        end_time := min (((i : ℚ) + 1) * chunk_duration) duration
        video_path := video_path }))

theorem split_video_into_chunks_pos {p : String} {d : ℚ} {n : ℤ} (hn : 0 < n) :
    split_video_into_chunks p d n =
      some ((List.range n.toNat).map (fun i =>
        { chunk_id := i
          start_time := (i : ℚ) * (d / (n : ℚ))
          end_time := min (((i : ℚ) + 1) * (d / (n : ℚ))) d
          video_path := p })) := by
  unfold split_video_into_chunks
  rw [if_neg (by omega)]

theorem chunk_end_min_eq {d : ℚ} {n : ℤ} (hd : 0 < d) (hn : 0 < n)
    {i : Nat} (hi : i < n.toNat) :
    min (((i : ℚ) + 1) * (d / (n : ℚ))) d = ((i : ℚ) + 1) * (d / (n : ℚ)) := by
  have hnq : (0 : ℚ) < (n : ℚ) := by exact_mod_cast hn
  have h1 : ((i : ℚ) + 1) ≤ (n : ℚ) := by
    have : (i : ℤ) + 1 ≤ n := by omega
    exact_mod_cast this
  have h2 : (0 : ℚ) ≤ d / (n : ℚ) := le_of_lt (div_pos hd hnq)
  have h3 : ((i : ℚ) + 1) * (d / (n : ℚ)) ≤ (n : ℚ) * (d / (n : ℚ)) :=
    mul_le_mul_of_nonneg_right h1 h2
  have h4 : (n : ℚ) * (d / (n : ℚ)) = d := by
    field_simp
  rw [min_eq_left]
  rw [h4] at h3
  exact h3

/-- C1: for every `duration > 0` and integer `n > 0`, `split_video_into_chunks`
    returns exactly `n` chunks with contiguous 0-based `chunk_id`s whose ranges
    partition `[0, duration)` exactly: `start_0 = 0`, `end_i = start_(i+1)` for
    `i < n-1`, and `end_(n-1) = duration`. -/
theorem chunk_planner_partitions (p : String) (d : ℚ) (n : ℤ)
    (hd : 0 < d) (hn : 0 < n) (cs : List Chunk)
    (hcs : split_video_into_chunks p d n = some cs) :
    ((cs.length : ℤ) = n) ∧
    (∀ i, ∀ h : i < cs.length, (cs.get ⟨i, h⟩).chunk_id = i) ∧
    (∀ h : 0 < cs.length, (cs.get ⟨0, h⟩).start_time = 0) ∧
    (∀ i, ∀ h : i + 1 < cs.length,
      (cs.get ⟨i, Nat.lt_of_succ_lt h⟩).end_time = (cs.get ⟨i + 1, h⟩).start_time) ∧
    (∀ h : cs.length - 1 < cs.length, (cs.get ⟨cs.length - 1, h⟩).end_time = d) := by
  rw [split_video_into_chunks_pos hn] at hcs
  have hcs' := hcs.symm
  injection hcs with hcs
  subst hcs
  have hlen : ((List.range n.toNat).map (fun i =>
      ({ chunk_id := i
         start_time := (i : ℚ) * (d / (n : ℚ))
         end_time := min (((i : ℚ) + 1) * (d / (n : ℚ))) d
         video_path := p } : Chunk))).length = n.toNat := by
    simp
  refine ⟨?_, ?_, ?_, ?_, ?_⟩
  · rw [hlen]; omega
  · intro i h
    simp [List.get_eq_getElem, List.getElem_map, List.getElem_range]
  · intro h
    simp [List.get_eq_getElem, List.getElem_map, List.getElem_range]
  · intro i h
    rw [hlen] at h
    simp only [List.get_eq_getElem, List.getElem_map, List.getElem_range]
    rw [chunk_end_min_eq hd hn (by omega)]
    push_cast
    ring
  · intro h
    rw [hlen] at h
    simp only [List.get_eq_getElem, List.getElem_map, List.getElem_range, hlen]
    rw [chunk_end_min_eq hd hn (by omega)]
    have htop : ((n.toNat - 1 : Nat) : ℚ) + 1 = (n : ℚ) := by
      have h1 : ((n.toNat - 1 : Nat) : ℤ) = n - 1 := by omega
      have : ((n.toNat - 1 : Nat) : ℚ) = ((n : ℚ) - 1) := by exact_mod_cast h1
      rw [this]; ring
    rw [htop]
    field_simp

/-- Witness for C1 at `duration = 180`, `n = 3` (spec Scenario A). -/
theorem chunk_planner_partitions_witness :
    ∃ cs, split_video_into_chunks "v.mp4" 180 3 = some cs ∧
      ((cs.length : ℤ) = 3) ∧
      (∀ h : 0 < cs.length, (cs.get ⟨0, h⟩).start_time = 0) := by
  refine ⟨_, split_video_into_chunks_pos (by decide), ?_, ?_⟩
  · exact (chunk_planner_partitions "v.mp4" 180 3 (by norm_num) (by decide) _
      (split_video_into_chunks_pos (by decide))).1
  · exact (chunk_planner_partitions "v.mp4" 180 3 (by norm_num) (by decide) _
      (split_video_into_chunks_pos (by decide))).2.2.1

/-- C7 counterexample: with `duration = -1 <= 0` and `n = 2 > 0`, the planner
    does not fail, it returns a chunk list — there is no input validation. -/
theorem split_video_accepts_nonpositive_duration :
    (split_video_into_chunks "v.mp4" (-1) 2).isSome = true := by
  rw [split_video_into_chunks_pos (by decide)]
  rfl

/-- C7 amended: the planner performs no input validation. It fails only when
    `n = 0` (Python `ZeroDivisionError`); for `n < 0` it returns the empty
    list, and for any other input (including `duration <= 0`) it returns a
    chunk list. -/
theorem split_video_no_input_validation (p : String) (d : ℚ) (n : ℤ) :
    (split_video_into_chunks p d n = none ↔ n = 0) ∧
    (n < 0 → split_video_into_chunks p d n = some []) := by
  constructor
  · unfold split_video_into_chunks
    by_cases h : n = 0
    · simp [h]
    · simp [h]
  · intro hneg
    unfold split_video_into_chunks
    rw [if_neg (by omega)]
    have : n.toNat = 0 := by omega
    simp [this]

/-- Witness for the amended C7 at `n = -2`. -/
theorem split_video_no_input_validation_witness :
    split_video_into_chunks "v.mp4" 5 (-2) = some [] :=
  (split_video_no_input_validation "v.mp4" 5 (-2)).2 (by decide)

/-- Transcription segment as built inside `process_chunk`: a dict with keys
    `start`, `end` (written `endTime` here), `text`, `translated_text`, with
    `start`/`end` already rebased to absolute asset time. -/
structure Segment where
  start : ℚ
  endTime : ℚ
  text : String
  translated_text : Option String
deriving DecidableEq, Repr

/-- Per-chunk result returned by `process_chunk` (mpi_service.py lines 130-136):
    a dict with keys `chunk_id`, `transcriptions`, `language`. Note the source
    dict has no `status` and no `error` key. -/
structure UnitResult where
  chunk_id : Nat
  transcriptions : List Segment
  language : String
deriving DecidableEq, Repr

/-- Aggregate dict returned by the master branch of `parallel_process_video`
    (mpi_service.py lines 196-201). -/
structure AggregateResult where
  transcriptions : List Segment
  language : String
  total_segments : Nat
  workers_used : Nat
deriving DecidableEq, Repr

/-- Merge step of the master branch of `parallel_process_video` (mpi_service.py
    lines 185-193): `all_results.sort(key=chunk_id)` (Python `list.sort` is
    stable), extend `all_transcriptions` with each result's `transcriptions`,
    then `all_transcriptions.sort(key=start)` (stable again). -/
def merge_transcriptions (all_results : List UnitResult) : List Segment :=
  let sorted := all_results.mergeSort (fun a b => decide (a.chunk_id ≤ b.chunk_id))
  ((sorted.map UnitResult.transcriptions).flatten).mergeSort
    (fun a b => decide (a.start ≤ b.start))

/-- Aggregation of `parallel_process_video`'s master branch: merged
    transcriptions, language of the first result after the chunk-id sort
    (`"unknown"` when there are no results), the segment count, and the
    worker count. -/
def parallel_aggregate (all_results : List UnitResult) (size : Nat) : AggregateResult :=
  { transcriptions := merge_transcriptions all_results
    language :=
      match all_results.mergeSort (fun a b => decide (a.chunk_id ≤ b.chunk_id)) with
      | [] => "unknown"
      | r :: _ => r.language
    total_segments := (merge_transcriptions all_results).length
    workers_used := size }

theorem pair_sublist_of_pairwise {α : Type} {R : α → α → Prop}
    {a b : α} (hne : a ≠ b) (hnr : ¬ R b a) :
    ∀ {l : List α}, l.Pairwise R → a ∈ l → b ∈ l → List.Sublist [a, b] l := by
  intro l
  induction l with
  | nil => intro _ ha _; cases ha
  | cons x xs ih =>
    intro hp ha hb
    rcases List.pairwise_cons.mp hp with ⟨hx, hxs⟩
    rcases List.mem_cons.mp ha with rfl | ha'
    · have hb' : b ∈ xs := by
        rcases List.mem_cons.mp hb with rfl | hb'
        · exact absurd rfl hne
        · exact hb'
      exact List.Sublist.cons₂ a (List.singleton_sublist.mpr hb')
    · rcases List.mem_cons.mp hb with rfl | hb'
      · exact absurd (hx a ha') hnr
      · exact List.Sublist.cons x (ih hxs ha' hb')

theorem pair_sublist_flatten {α : Type} {s t : α} :
    ∀ {L : List (List α)} {xs ys : List α},
      List.Sublist [xs, ys] L → s ∈ xs → t ∈ ys → List.Sublist [s, t] L.flatten := by
  intro L
  induction L with
  | nil =>
    intro xs ys h
    cases List.sublist_nil.mp h
  | cons z L ih =>
    intro xs ys h hs ht
    cases h with
    | cons _ h' =>
      exact List.Sublist.trans (ih h' hs ht)
        (List.sublist_append_right z L.flatten)
    | cons₂ _ h' =>
      rw [List.flatten_cons]
      exact List.Sublist.append (List.singleton_sublist.mpr hs)
        (List.singleton_sublist.mpr
          (List.mem_flatten_of_mem (List.singleton_sublist.mp h') ht))

theorem segLe_trans : ∀ (a b c : Segment),
    (fun a b : Segment => decide (a.start ≤ b.start)) a b = true →
    (fun a b : Segment => decide (a.start ≤ b.start)) b c = true →
    (fun a b : Segment => decide (a.start ≤ b.start)) a c = true := by
  intro a b c hab hbc
  simp only [decide_eq_true_eq] at *
  exact le_trans hab hbc

theorem segLe_total : ∀ (a b : Segment),
    ((fun a b : Segment => decide (a.start ≤ b.start)) a b ||
     (fun a b : Segment => decide (a.start ≤ b.start)) b a) = true := by
  intro a b
  simp only [Bool.or_eq_true, decide_eq_true_eq]
  exact le_total a.start b.start

theorem resLe_trans : ∀ (a b c : UnitResult),
    (fun a b : UnitResult => decide (a.chunk_id ≤ b.chunk_id)) a b = true →
    (fun a b : UnitResult => decide (a.chunk_id ≤ b.chunk_id)) b c = true →
    (fun a b : UnitResult => decide (a.chunk_id ≤ b.chunk_id)) a c = true := by
  intro a b c hab hbc
  simp only [decide_eq_true_eq] at *
  exact le_trans hab hbc

theorem resLe_total : ∀ (a b : UnitResult),
    ((fun a b : UnitResult => decide (a.chunk_id ≤ b.chunk_id)) a b ||
     (fun a b : UnitResult => decide (a.chunk_id ≤ b.chunk_id)) b a) = true := by
  intro a b
  simp only [Bool.or_eq_true, decide_eq_true_eq]
  exact le_total a.chunk_id b.chunk_id

/-- C2: the aggregator output has length equal to the sum of the input
    results' segment counts, is sorted by `start` non-decreasing, and for a
    tie in `start` the segment from the lower `chunk_id` comes first (stated
    as a pair-sublist: the two tied segments occur in chunk order). -/
theorem aggregator_sorted_stable (results : List UnitResult) :
    (merge_transcriptions results).length
        = (results.map (fun r => r.transcriptions.length)).sum ∧
    (merge_transcriptions results).Pairwise (fun a b => a.start ≤ b.start) ∧
    (∀ r1 r2 s t, r1 ∈ results → r2 ∈ results → r1.chunk_id < r2.chunk_id →
      s ∈ r1.transcriptions → t ∈ r2.transcriptions → s.start = t.start →
      List.Sublist [s, t] (merge_transcriptions results)) := by
  refine ⟨?_, ?_, ?_⟩
  · unfold merge_transcriptions
    rw [List.length_mergeSort, List.length_flatten, List.map_map]
    exact List.Perm.sum_eq (List.Perm.map _
      (List.mergeSort_perm results _))
  · unfold merge_transcriptions
    exact List.Pairwise.imp (fun h => by
        simpa only [decide_eq_true_eq] using h)
      (List.sorted_mergeSort segLe_trans segLe_total _)
  · intro r1 r2 s t hr1 hr2 hlt hs ht hst
    have hne : r1 ≠ r2 := by
      intro h
      rw [h] at hlt
      omega
    have hnr : ¬ ((fun a b : UnitResult => decide (a.chunk_id ≤ b.chunk_id))
        r2 r1 = true) := by
      simp only [decide_eq_true_eq]
      omega
    have hpairR : List.Sublist [r1, r2]
        (results.mergeSort (fun a b => decide (a.chunk_id ≤ b.chunk_id))) :=
      pair_sublist_of_pairwise hne hnr
        (List.sorted_mergeSort resLe_trans resLe_total results)
        (List.mem_mergeSort.mpr hr1) (List.mem_mergeSort.mpr hr2)
    have hmap : List.Sublist [r1.transcriptions, r2.transcriptions]
        ((results.mergeSort (fun a b => decide (a.chunk_id ≤ b.chunk_id))).map
          UnitResult.transcriptions) :=
      List.Sublist.map UnitResult.transcriptions hpairR
    have hflat : List.Sublist [s, t]
        (((results.mergeSort (fun a b => decide (a.chunk_id ≤ b.chunk_id))).map
          UnitResult.transcriptions).flatten) :=
      pair_sublist_flatten hmap hs ht
    unfold merge_transcriptions
    exact List.pair_sublist_mergeSort segLe_trans segLe_total
      (by simp [hst]) hflat

/-- Witness for C2 at the two-chunk input of spec Scenario B, extended with a
    tie at `start = 60` across the chunk boundary. -/
theorem aggregator_sorted_stable_witness :
    List.Sublist
      [({ start := 60, endTime := 65, text := "b", translated_text := none } : Segment),
       ({ start := 60, endTime := 64, text := "c", translated_text := none } : Segment)]
      (merge_transcriptions
        [{ chunk_id := 0
           transcriptions :=
             [{ start := 0, endTime := 5, text := "a", translated_text := none },
              { start := 60, endTime := 65, text := "b", translated_text := none }]
           language := "en" },
         { chunk_id := 1
           transcriptions :=
             [{ start := 60, endTime := 64, text := "c", translated_text := none }]
           language := "en" }]) :=
  (aggregator_sorted_stable _).2.2
    { chunk_id := 0
      transcriptions :=
        [{ start := 0, endTime := 5, text := "a", translated_text := none },
         { start := 60, endTime := 65, text := "b", translated_text := none }]
      language := "en" }
    { chunk_id := 1
      transcriptions :=
        [{ start := 60, endTime := 64, text := "c", translated_text := none }]
      language := "en" }
    { start := 60, endTime := 65, text := "b", translated_text := none }
    { start := 60, endTime := 64, text := "c", translated_text := none }
    (by simp) (by simp) (by decide)
    (by simp) (by simp) rfl

/-- Job record as created by `JobManager.create_job` (job_manager.py lines
    64-90): a dict with the keys below. A `result` payload (a Python dict) is
    modelled as a string-keyed association list; an absent (`None`) value is
    `none`. Status strings are the `JobStatus` enum values. -/
structure Job where
  job_id : String
  status : String
  video_filename : String
  target_language : Option String
  created_at : String
  updated_at : String
  progress : Int
  message : String
  result : Option (List (String × String))
  error : Option String
deriving DecidableEq, Repr

/-- In-memory store `self._jobs` of `JobManager` (the non-Redis fallback
    branch of job_manager.py; the Redis branch applies the same field logic to
    the serialized record). A Python dict modelled as an association list
    keyed by `job_id`. -/
abbrev JobStore : Type := List (String × Job)

/-- Embedding of `get_job` (job_manager.py lines 125-138): dict lookup. -/
def get_job (s : JobStore) (job_id : String) : Option Job :=
  (s.find? (fun p => p.1 == job_id)).map (fun p => p.2)

/-- Python dict assignment `self._jobs[job_id] = job`: bind `job_id`,
    dropping any previous binding. -/
def set_job (s : JobStore) (job_id : String) (j : Job) : JobStore :=
  (job_id, j) :: s.filter (fun p => !(p.1 == job_id))

/-- Embedding of `create_job` (job_manager.py lines 64-90). The fresh uuid
    and the `datetime.utcnow()` timestamp are passed in as parameters. -/
def create_job (s : JobStore) (job_id : String) (video_filename : String)
    (target_language : Option String) (now : String) : JobStore :=
  set_job s job_id
    { job_id := job_id
      status := "pending"
      video_filename := video_filename
      target_language := target_language
      created_at := now
      updated_at := now
      progress := 0
      message := "Job created, waiting to start..."
      result := none
      error := none }

/-- Embedding of `update_job` (job_manager.py lines 92-123). Each field is
    applied under the source's truthiness test: `if status:` (a `JobStatus`
    str-enum value is truthy iff nonempty), `if progress is not None:`,
    `if message:`, `if result:` (a dict is truthy iff nonempty),
    `if error:`. `updated_at` is always refreshed; returns `false` only when
    the job id is unknown. -/
def update_job (s : JobStore) (job_id : String) (status : Option String)
    (progress : Option Int) (message : Option String)
    (result : Option (List (String × String))) (error : Option String)
    (now : String) : JobStore × Bool :=
  match get_job s job_id with
  | none => (s, false)
  | some job =>
    let job := match status with
      | some st => if st = "" then job else { job with status := st }
      | none => job
    let job := match progress with
      | some pr => { job with progress := pr }
      | none => job
    let job := match message with
      | some m => if m = "" then job else { job with message := m }
      | none => job
    let job := match result with
      | some r => if r = [] then job else { job with result := some r }
      | none => job
    let job := match error with
      | some e => if e = "" then job else { job with error := some e }
      | none => job
    let job := { job with updated_at := now }
    (set_job s job_id job, true)

theorem get_job_set_job (s : JobStore) (id : String) (j : Job) :
    get_job (set_job s id j) id = some j := by
  unfold get_job set_job
  simp [List.find?]

/-- C3 counterexample: a job updated into the terminal status `completed` is
    still mutated by a later `update_job` call — its status becomes
    `processing` — so a transition does leave a terminal state. -/
theorem update_job_mutates_terminal_cex :
    ((get_job ((update_job (create_job [] "j1" "v.mp4" none "t0") "j1"
        (some "completed") none none none none "t1").1) "j1").map Job.status
      = some "completed") ∧
    ((get_job ((update_job
        ((update_job (create_job [] "j1" "v.mp4" none "t0") "j1"
            (some "completed") none none none none "t1").1)
        "j1" (some "processing") none none none none "t2").1) "j1").map Job.status
      = some "processing") := by
  constructor <;> rfl

/-- C3 amended: `update_job` has no terminal-state guard — it applies updates
    to any existing job regardless of status; in particular a job whose
    status is terminal (`completed` or `failed`) still has its status
    overwritten by any truthy new status. Terminal-state immutability is at
    most a caller convention, not enforced by the Job State Machine. -/
theorem update_job_no_terminal_guard (s : JobStore) (id : String) (j : Job)
    (h : get_job s id = some j)
    (_hterm : j.status = "completed" ∨ j.status = "failed")
    (st : String) (hst : st ≠ "") (now : String) :
    get_job (update_job s id (some st) none none none none now).1 id =
      some { j with status := st, updated_at := now } := by
  unfold update_job
  rw [h]
  simp [hst, get_job_set_job]

/-- Witness for the amended C3: a concrete `completed` job is overwritten to
    `processing`. -/
theorem update_job_no_terminal_guard_witness :
    get_job (update_job
        [("j1", { job_id := "j1", status := "completed",
                  video_filename := "v.mp4", target_language := none,
                  created_at := "t0", updated_at := "t1", progress := 100,
                  message := "done", result := none, error := none })]
        "j1" (some "processing") none none none none "t2").1 "j1" =
      some { job_id := "j1", status := "processing",
             video_filename := "v.mp4", target_language := none,
             created_at := "t0", updated_at := "t2", progress := 100,
             message := "done", result := none, error := none } :=
  update_job_no_terminal_guard
    [("j1", { job_id := "j1", status := "completed",
              video_filename := "v.mp4", target_language := none,
              created_at := "t0", updated_at := "t1", progress := 100,
              message := "done", result := none, error := none })]
    "j1"
    { job_id := "j1", status := "completed",
      video_filename := "v.mp4", target_language := none,
      created_at := "t0", updated_at := "t1", progress := 100,
      message := "done", result := none, error := none }
    rfl (Or.inl rfl) "processing" (by decide) "t2"

/-- C8 counterexample: a create→update→get round trip that supplies a value
    for every updatable field, with `message = ""`, does not return the
    last-written message — the stale creation message leaks through. -/
theorem round_trip_stale_message_cex :
    (get_job (update_job (create_job [] "j1" "v.mp4" none "t0") "j1"
        (some "processing") (some 10) (some "") (some [("k", "v")])
        (some "boom") "t1").1 "j1").map Job.message
      = some "Job created, waiting to start..." := by
  rfl

/-- C8 amended: the create→update→get round trip returns exactly the
    last-written value of every field provided the supplied message, result
    and error are truthy (nonempty) and the supplied status is a (nonempty)
    `JobStatus` value; a falsy supplied value is ignored (see C10). -/
theorem job_round_trip (s : JobStore) (id fn : String) (tl : Option String)
    (t0 t1 : String) (st : String) (hst : st ≠ "") (pr : Int)
    (msg : String) (hm : msg ≠ "") (res : List (String × String))
    (hr : res ≠ []) (err : String) (he : err ≠ "") :
    get_job (update_job (create_job s id fn tl t0) id (some st) (some pr)
        (some msg) (some res) (some err) t1).1 id =
      some { job_id := id, status := st, video_filename := fn,
             target_language := tl, created_at := t0, updated_at := t1,
             progress := pr, message := msg, result := some res,
             error := some err } := by
  have hc : get_job (create_job s id fn tl t0) id =
      some { job_id := id, status := "pending", video_filename := fn,
             target_language := tl, created_at := t0, updated_at := t0,
             progress := 0, message := "Job created, waiting to start...",
             result := none, error := none } := by
    unfold create_job
    exact get_job_set_job _ _ _
  unfold update_job
  rw [hc]
  simp [hst, hm, hr, he, get_job_set_job]

/-- Witness for the amended C8 at concrete truthy field values. -/
theorem job_round_trip_witness :
    get_job (update_job (create_job [] "j2" "clip.mp4" (some "id") "t0") "j2"
        (some "completed") (some 100) (some "all done")
        (some [("total_segments", "3")]) (some "warn") "t9").1 "j2" =
      some { job_id := "j2", status := "completed",
             video_filename := "clip.mp4", target_language := some "id",
             created_at := "t0", updated_at := "t9", progress := 100,
             message := "all done", result := some [("total_segments", "3")],
             error := some "warn" } :=
  job_round_trip [] "j2" "clip.mp4" (some "id") "t0" "t9" "completed"
    (by decide) 100 "all done" (by decide) [("total_segments", "3")]
    (by decide) "warn" (by decide)

/-- C10: on an existing job, `update_job` with `progress = 0` does set the
    progress field to 0, while supplied falsy values — `message = ""`,
    `result = {}` (empty dict), `error = ""` — are silently treated as not
    supplied and leave those fields unchanged; `updated_at` is refreshed and
    the call returns `true`. -/
theorem update_job_falsy_fields_ignored (s : JobStore) (id : String) (j : Job)
    (h : get_job s id = some j) (now : String) :
    ((update_job s id none (some 0) (some "") (some []) (some "") now).2
        = true) ∧
    (get_job (update_job s id none (some 0) (some "") (some []) (some "") now).1
        id = some { j with progress := 0, updated_at := now }) := by
  unfold update_job
  rw [h]
  simp [get_job_set_job]

/-- Witness for C10: a job with nonempty message, result and error keeps all
    three after a falsy-field update; only progress and `updated_at` change. -/
theorem update_job_falsy_fields_ignored_witness :
    ((update_job
        [("j3", { job_id := "j3", status := "processing",
                  video_filename := "v.mp4", target_language := none,
                  created_at := "t0", updated_at := "t1", progress := 40,
                  message := "working", result := some [("x", "1")],
                  error := some "prior" })]
        "j3" none (some 0) (some "") (some []) (some "") "t2").2 = true) ∧
    (get_job (update_job
        [("j3", { job_id := "j3", status := "processing",
                  video_filename := "v.mp4", target_language := none,
                  created_at := "t0", updated_at := "t1", progress := 40,
                  message := "working", result := some [("x", "1")],
                  error := some "prior" })]
        "j3" none (some 0) (some "") (some []) (some "") "t2").1 "j3" =
      some { job_id := "j3", status := "processing",
             video_filename := "v.mp4", target_language := none,
             created_at := "t0", updated_at := "t2", progress := 0,
             message := "working", result := some [("x", "1")],
             error := some "prior" }) :=
  update_job_falsy_fields_ignored
    [("j3", { job_id := "j3", status := "processing",
              video_filename := "v.mp4", target_language := none,
              created_at := "t0", updated_at := "t1", progress := 40,
              message := "working", result := some [("x", "1")],
              error := some "prior" })]
    "j3"
    { job_id := "j3", status := "processing",
      video_filename := "v.mp4", target_language := none,
      created_at := "t0", updated_at := "t1", progress := 40,
      message := "working", result := some [("x", "1")],
      error := some "prior" }
    rfl "t2"

/-- Raw chunk-local transcription segment yielded by the whisper capability
    (already `.strip()`ed text, as the loop body does first). -/
structure RawSegment where
  start : ℚ
  endTime : ℚ
  text : String
deriving DecidableEq, Repr

/-- Observable outcome of one `process_chunk` call (mpi_service.py lines
    61-136): the returned result dict, or the exception that propagated out,
    together with whether the extracted audio chunk file still exists on disk
    when the call ends. -/
structure ChunkExecOutcome where
  result : Except String UnitResult
  audio_file_left : Bool
deriving Repr

/-- Embedding of `process_chunk`. The external calls are passed as oracles:
    `ffmpeg` is the `subprocess.run(..., check=True)` audio extraction (an
    error is the raised `CalledProcessError`, modelled as creating no output
    file), `transcribe` is the whisper call (success yields the raw segments
    and the detected language), and `translate_cap` is the per-segment
    GoogleTranslator call. The source wraps only the translator call in
    try/except, falling back to the untranslated text; there is no handler
    around ffmpeg or the transcription, and the cleanup `unlink` runs only on
    the straight-line path after the transcription loop, so on a
    transcription failure the exception propagates and the extracted audio
    file remains on disk. Segment times are rebased by adding
    `chunk.start_time`. -/
def process_chunk (chunk : Chunk) (ffmpeg : Except String Unit)
    (transcribe : Except String (List RawSegment × String))
    (translate_cap : String → Except String String)
    (target_language : Option String) : ChunkExecOutcome :=
  match ffmpeg with
  | .error e => { result := .error e, audio_file_left := false }
  | .ok _ =>
    match transcribe with
    | .error e => { result := .error e, audio_file_left := true }
    | .ok (segs, lang) =>
      { result := .ok
          { chunk_id := chunk.chunk_id
            transcriptions := segs.map (fun sg =>
              { start := sg.start + chunk.start_time
                endTime := sg.endTime + chunk.start_time
                text := sg.text
                translated_text :=
                  match target_language with
                  | none => none
                  | some _ =>
                    match translate_cap sg.text with
                    | .ok t => some t
                    | .error _ => some sg.text })
            language := lang }
        audio_file_left := false }

/-- Gather-and-aggregate phase of `parallel_process_video` as one MPI run
    observes it: each participant's `process_chunk` either returns a result
    dict or raises. An uncaught exception in any worker aborts the whole
    `mpirun` (nothing is gathered and nothing is published); only when every
    worker returns does the master sort, merge and publish — with no
    per-chunk failure check, since the result dict carries no status. -/
def run_phase (outcomes : List (Except String UnitResult)) (size : Nat) :
    Except String AggregateResult :=
  match outcomes.filterMap (fun o => match o with
      | .error e => some e
      | .ok _ => none) with
  | e :: _ => .error e
  | [] => .ok (parallel_aggregate
      (outcomes.filterMap (fun o => match o with
        | .ok r => some r
        | .error _ => none)) size)

/-- C5 at the failing input: when the transcription capability fails,
    `process_chunk` propagates the exception instead of returning a
    `status=failed` UnitResult — the source has no try/except around the
    transcription and its result dict has no `status` field at all. -/
theorem process_chunk_propagates_transcription_failure :
    (process_chunk
      { chunk_id := 0, start_time := 0, end_time := 60, video_path := "v.mp4" }
      (.ok ()) (.error "whisper crashed") (fun t => .ok t) none).result
      = .error "whisper crashed" := rfl

/-- C6 at the failing input: on the transcription-failure exit path the
    extracted audio chunk file is not deleted — the cleanup `unlink` sits on
    the success path only, with no try/finally. -/
theorem process_chunk_leaks_audio_on_failure :
    (process_chunk
      { chunk_id := 0, start_time := 0, end_time := 60, video_path := "v.mp4" }
      (.ok ()) (.error "whisper crashed") (fun t => .ok t) none).audio_file_left
      = true := rfl

/-- C4 at the failing input: with three chunks where chunk 1's transcription
    failed, the whole run aborts with the raised exception — the surviving
    chunks' results are not gathered, nothing references the failing chunk,
    and no aggregate (partial or otherwise) is published by this layer. -/
theorem run_phase_aborts_on_chunk_failure :
    run_phase
      [.ok { chunk_id := 0
             transcriptions :=
               [{ start := 0, endTime := 5, text := "a", translated_text := none }]
             language := "en" },
       .error "whisper crashed on chunk 1",
       .ok { chunk_id := 2
             transcriptions :=
               [{ start := 120, endTime := 125, text := "c", translated_text := none }]
             language := "en" }] 3
      = .error "whisper crashed on chunk 1" := rfl

/-- Embedding of `should_use_mpi` (MPITranslationService.py lines 133-156):
    `False` when MPI is unavailable; otherwise probe the duration (a probe
    exception, modelled as `none`, yields `False`) and use MPI exactly for
    `duration > 60`. -/
def should_use_mpi (mpi_enabled : Bool) (duration : Option ℚ) : Bool :=
  if !mpi_enabled then false
  else
    match duration with
    | none => false
    | some d => decide (d > 60)

/-- Control flow of `process_video_parallel` (MPITranslationService.py lines
    43-131): when MPI is not enabled the method returns `None` immediately
    (lines 62-64); otherwise `mpirun` runs (`mpi_run_ok` is false when it
    exits nonzero, times out, or raises) and on success the shared result
    file is read (`none` when absent). -/
def process_video_parallel (mpi_enabled : Bool) (mpi_run_ok : Bool)
    (result_file : Option AggregateResult) : Option AggregateResult :=
  if !mpi_enabled then none
  else if !mpi_run_ok then none
  else result_file

/-- C9 counterexample: with the distributed backend unreachable and a 200s
    asset, `should_use_mpi` is `false` and `process_video_parallel` returns
    `None` — no single-chunk (`worker_count=1`) execution through the Unit
    Executor/Aggregator path happens; the fallback lives in a separate
    non-MPI code path of the caller. -/
theorem mpi_fallback_not_single_chunk_cex :
    should_use_mpi false (some 200) = false ∧
    process_video_parallel false true
      (some { transcriptions := [], language := "en", total_segments := 0,
              workers_used := 1 }) = none := by
  constructor <;> rfl

/-- C9 amended: `should_use_mpi` returns `true` exactly when the distributed
    backend is reachable and the asset's duration is determinable and exceeds
    60 seconds; when the backend is unreachable `process_video_parallel`
    executes nothing and returns `None` — the single-node fallback is a
    separate non-MPI code path in the caller, not the Unit
    Executor/Aggregator path with `worker_count=1`. -/
theorem should_use_mpi_iff (enabled : Bool) (dur : Option ℚ) (run_ok : Bool)
    (file : Option AggregateResult) :
    (should_use_mpi enabled dur = true ↔
      enabled = true ∧ ∃ d, dur = some d ∧ 60 < d) ∧
    (enabled = false → process_video_parallel enabled run_ok file = none) := by
  constructor
  · unfold should_use_mpi
    cases enabled <;> cases dur <;> simp
  · intro h
    subst h
    rfl

/-- Witness for the amended C9: a reachable backend with a 120s asset uses
    MPI; an unreachable backend yields no result from this service. -/
theorem should_use_mpi_iff_witness :
    should_use_mpi true (some 120) = true ∧
    process_video_parallel false true none = none := by
  constructor
  · exact (should_use_mpi_iff true (some 120) true none).1.mpr
      ⟨rfl, 120, rfl, by norm_num⟩
  · exact (should_use_mpi_iff false (some 120) true none).2 rfl

end Sister
